import Mathlib

/-!
Verification of the AI chat client of an editor plugin.

The development shallowly embeds the client found in `src/api/ai-client.ts`
(the variant with endpoint-dialect detection), together with the
conversation store of `src/features/conversation.ts`.  JavaScript strings
are modelled as `List Char`; string methods (`trim`, `split`, `slice`,
`startsWith`, `includes`, `endsWith`) are translated to executable list
functions below.  `JSON.parse` is a host-runtime primitive and is kept as
an explicit function parameter `parse : Str → Option Json`; concrete
fixtures instantiating it (consistent with real JSON syntax on the inputs
used) appear near the witnesses.  Asynchronous methods are embedded as
pure functions; the points where `this._settings` is re-read after an
`await` are exposed as separate settings parameters.
-/

/-- JavaScript strings, modelled as lists of characters. -/
abbrev Str := List Char

/-- Whitespace recognised by JavaScript `String.prototype.trim`
(space, tab, and line terminators; the exotic Unicode space classes are
not produced by any input in this code base). -/
def isWs (c : Char) : Bool :=
  c = ' ' || c = '\t' || c = '\n' || c = '\r' || c = '\x0b' || c = '\x0c'

/-- JavaScript `s.trim()`: drop leading and trailing whitespace. -/
def jsTrim (s : Str) : Str :=
  ((s.dropWhile isWs).reverse.dropWhile isWs).reverse

/-- JavaScript `s.split('\n')`: never returns an empty list; keeps empty
fragments between consecutive separators. -/
def splitNL : Str → List Str
  | [] => [[]]
  | c :: rest =>
    match splitNL rest with
    | [] => [[c]]
    | l :: ls => if c = '\n' then [] :: l :: ls else (c :: l) :: ls

/-- JavaScript `s.includes(p)`: substring containment. -/
def jsIncludes (s p : Str) : Bool := decide (p <:+: s)

/-- JavaScript `s.startsWith(p)`. -/
def jsStartsWith (s p : Str) : Bool := decide (p <+: s)

/-- JavaScript `s.endsWith('/')` specialised to one character. -/
def endsWithSlash (s : Str) : Bool := decide (s.getLast? = some '/')

/-- Minimal JSON value model: what `JSON.parse` can return.  Numbers are
modelled as integers — the payload fields the client reads are either
strings, objects, arrays, or integral timestamps, and no arithmetic is
performed on them. -/
inductive Json where
  | null : Json
  | bool : Bool → Json
  | num : Int → Json
  | str : Str → Json
  | arr : List Json → Json
  | obj : List (Str × Json) → Json

/-- First-match field lookup in a JSON object field list. -/
def lookupField : List (Str × Json) → Str → Option Json
  | [], _ => none
  | (k', v) :: rest, k => if k' = k then some v else lookupField rest k

/-- Property read `j.k`, yielding `none` where JavaScript yields
`undefined` (or throws on `null`/primitive receivers — in every use site
below that throw is either caught or modelled by the caller). -/
def Json.get (j : Json) (k : Str) : Option Json :=
  match j with
  | .obj fs => lookupField fs k
  | _ => none

/-- Array index read `j[i]`. -/
def Json.getIdx (j : Json) (i : Nat) : Option Json :=
  match j with
  | .arr xs => xs.get? i
  | _ => none

/-- Read a field that the code consumes as a string.  Non-string values
(which JavaScript would coerce) are not produced by either wire dialect
and are treated as absent. -/
def Json.getStr (j : Json) (k : Str) : Option Str :=
  match j.get k with
  | some (.str s) => some s
  | _ => none

/-- Chat message `{role, content}` (`Message` in `src/types/index.ts`). -/
structure Message where
  role : Str
  content : Str
deriving DecidableEq, Repr

/-- Model descriptor `{name, modified_at, size}` (`ModelInfo` in
`src/types/index.ts`). -/
structure ModelInfo where
  name : Str
  modified_at : Str
  size : Int
deriving DecidableEq, Repr

/-- The settings fields the client reads (`OllamaSettings`); the UI-only
fields are omitted as the client never dereferences them. -/
structure OllamaSettings where
  apiEndpoint : Str
  apiKey : Str
  model : Str
deriving DecidableEq, Repr

/-- `ChatOptions` of `src/api/ai-client.ts`. -/
structure ChatOptions where
  model : Str
  messages : List Message
  stream : Bool
  temperature : Option Int
  maxTokens : Option Int
deriving DecidableEq, Repr

/-- `AIClient._isOllama()`: substring heuristics on the configured
endpoint. -/
def isOllamaEndpoint (apiEndpoint : Str) : Bool :=
  jsIncludes apiEndpoint "localhost".data ||
  jsIncludes apiEndpoint "127.0.0.1".data ||
  jsIncludes apiEndpoint "11434".data

/-- `AIClient._getBaseUrl()`: trim, then strip one trailing slash. -/
def getBaseUrl (apiEndpoint : Str) : Str :=
  let url := jsTrim apiEndpoint
  if endsWithSlash url then url.dropLast else url

/-- `AIClient._getChatEndpoint()`. -/
def getChatEndpoint (apiEndpoint : Str) : Str :=
  let base := getBaseUrl apiEndpoint
  if isOllamaEndpoint apiEndpoint then base ++ "/api/chat".data
  else if jsIncludes base "/v1".data then base ++ "/chat/completions".data
  else base ++ "/v1/chat/completions".data

/-- `AIClient._getModelsEndpoint()`. -/
def getModelsEndpoint (apiEndpoint : Str) : Str :=
  let base := getBaseUrl apiEndpoint
  if isOllamaEndpoint apiEndpoint then base ++ "/api/tags".data
  else if jsIncludes base "/v1".data then base ++ "/models".data
  else base ++ "/v1/models".data

/-- JSON encoding of a `{role, content}` message object. -/
def msgToJson (m : Message) : Json :=
  .obj [("role".data, .str m.role), ("content".data, .str m.content)]

/-! ## Streaming decode (`AIClient._processStream`) -/

/-- The truthiness filter `text.split('\n').filter(line => line.trim())`. -/
def keepLine (line : Str) : Bool := decide (jsTrim line ≠ [])

/-- Event-data extraction for one line: strip a `data: ` marker when
present and skip a `[DONE]` payload (the `continue` in the source);
`none` means the line contributes nothing further. -/
def lineData (line : Str) : Option Str :=
  if jsStartsWith line "data: ".data then
    let data := line.drop 6
    if data = "[DONE]".data then none else some data
  else some line

/-- Delta extraction from one parsed event: `json.message?.content || ''`
for the local dialect, `json.choices?.[0]?.delta?.content || ''`
otherwise.  A missing field (or a throw on a `null` receiver, which the
enclosing `catch` swallows) contributes the empty string. -/
def deltaOfJson (isOllama : Bool) (j : Json) : Str :=
  if isOllama then
    ((j.get "message".data).map
      (fun m => (m.getStr "content".data).getD [])).getD []
  else
    (((j.get "choices".data).bind (fun cs => cs.getIdx 0)).map
      (fun c0 => ((c0.get "delta".data).map
        (fun d => (d.getStr "content".data).getD [])).getD [])).getD []

/-- Processing of one (already text-decoded) line: the body of the
`for (const line of lines)` loop.  `none` when the line emits nothing —
either skipped as `[DONE]`, failed to parse (`JSON.parse` throws and the
`catch` continues), or carried an absent/empty delta. -/
def lineDelta (parse : Str → Option Json) (isOllama : Bool) (line : Str) :
    Option Str :=
  match lineData line with
  | none => none
  | some data =>
    match parse data with
    | none => none
    | some json =>
      let chunk := deltaOfJson isOllama json
      if chunk = [] then none else some chunk

/-- The lines one chunk is (re-)split into:
`text.split('\n').filter(line => line.trim())`. -/
def chunkLines (text : Str) : List Str := (splitNL text).filter keepLine

/-- One iteration of the outer `while` loop over stream chunks; the
accumulator carries the callback-invocation list (in order) and the
`content` buffer. -/
def processChunk (parse : Str → Option Json) (isOllama : Bool)
    (acc : List Str × Str) (text : Str) : List Str × Str :=
  (chunkLines text).foldl
    (fun a line =>
      match lineDelta parse isOllama line with
      | none => a
      | some chunk => (a.1 ++ [chunk], a.2 ++ chunk))
    acc

/-- `AIClient._processStream`, as a function of the dialect in force when
the stream loop starts and the sequence of text-decoded body chunks.
Returns the ordered token-callback invocations and the final `content`
buffer; the method resolves with `{role:'assistant', content}`. -/
def processStream (parse : Str → Option Json) (isOllama : Bool)
    (chunks : List Str) : List Str × Str :=
  chunks.foldl (processChunk parse isOllama) ([], [])

/-- Specification-side form of the emitted delta sequence: each chunk is
split into kept lines and each line independently contributes at most one
delta (proved equal to the fold in `processStream_eq`). -/
def streamDeltas (parse : Str → Option Json) (isOllama : Bool)
    (chunks : List Str) : List Str :=
  chunks.flatMap (fun text => (chunkLines text).filterMap (lineDelta parse isOllama))

/-! ## The HTTP exchange (`AIClient.chat`, `AIClient.fetchModels`) -/

/-- The request body `chat` serialises: the local-dialect shape
`{model, messages, stream, options:{temperature, num_predict}}` or the
OpenAI-compatible shape
`{model, messages, stream, temperature, max_tokens}`. -/
inductive ChatBody where
  | ollama (model : Str) (messages : List Message) (stream : Bool)
      (temperature : Option Int) (num_predict : Option Int)
  | openai (model : Str) (messages : List Message) (stream : Bool)
      (temperature : Option Int) (max_tokens : Option Int)
deriving DecidableEq, Repr

/-- The messages carried by a serialised body. -/
def ChatBody.messagesOf : ChatBody → List Message
  | .ollama _ ms _ _ _ => ms
  | .openai _ ms _ _ _ => ms

/-- The model identifier carried by a serialised body. -/
def ChatBody.modelOf : ChatBody → Str
  | .ollama m _ _ _ _ => m
  | .openai m _ _ _ _ => m

/-- One `fetch` invocation as observed by a mocked transport: target URL,
whether a bearer `Authorization` header was attached, and the request
body (`none` for the body-less model-listing GET). -/
structure FetchCall where
  url : Str
  hasAuth : Bool
  body : Option ChatBody
deriving DecidableEq, Repr

/-- Outcome the transport produces for the single `fetch` a call issues:
either the promise rejects (network failure or abort), or a response
arrives with a success flag, a status code, the result of
`response.json()` (`none` when that promise rejects), and the streamed
body chunks (`none` when `response.body` is absent). -/
inductive TransportResult where
  | reject : TransportResult
  | resp (ok : Bool) (status : Nat) (jsonBody : Option Json)
      (chunks : Option (List Str)) : TransportResult

/-- Failure modes a call can settle with.  The client defines no
configuration-validation error anywhere; the constructors below are the
only ways a call rejects. -/
inductive JsError where
  | error (msg : Str)      -- `throw new Error(message)`
  | typeError              -- property access on `undefined`
  | fetchReject            -- the `fetch` (or `response.json()`) promise rejected
deriving DecidableEq, Repr

/-- Decimal rendering of a status code for the
`` `API error: ${response.status}` `` template. -/
def natToStr (n : Nat) : Str := (Nat.repr n).data

/-- The message of the error thrown on a non-success status:
`error.error?.message || error.message || `API error: ${status}``, where
`error` is `await response.json().catch(() => ({}))`. -/
def errorMessageOf (e : Json) (status : Nat) : Str :=
  let inner := ((e.get "error".data).map
    (fun v => (v.getStr "message".data).getD [])).getD []
  if inner ≠ [] then inner
  else
    let outer := (e.getStr "message".data).getD []
    if outer ≠ [] then outer
    else "API error: ".data ++ natToStr status

/-- Interpretation of a JSON value as a `{role, content}` message (used
where the code trusts `data.message` to have that shape). -/
def asMessage (j : Json) : Option Message :=
  match j.getStr "role".data, j.getStr "content".data with
  | some r, some c => some ⟨r, c⟩
  | _, _ => none

/-- `data.choices[0].message.content` — unchained property access: any
missing step throws a `TypeError`. -/
def choicesMessageContent (data : Json) : Option Str :=
  ((data.get "choices".data).bind (fun cs => cs.getIdx 0)).bind
    (fun c0 => (c0.get "message".data).bind
      (fun m => m.getStr "content".data))

/-- `AIClient.chat`, embedded as a pure function.

`sReq` is the settings object at call start: the endpoint, the
`Authorization` header, and the body shape are computed synchronously
before the first `await` (lines 425–462), so they can only see `sReq`.
`sDecode` is the settings object in force when the response is decoded:
`this._isOllama()` is re-read at line 471 (non-streaming, after
`await response.json()`) and at line 489 (stream start, after
`await fetch`), both behind at least one suspension point, so a
`updateSettings` performed while the call was suspended is visible there.

The result records the `fetch` calls issued (always exactly one — the
method performs no validation), the ordered token-callback invocations,
and the settled outcome.  `.ok none` models resolving with `undefined`
(the `return data.message` path when the payload lacks the field). -/
def chat (sReq sDecode : OllamaSettings) (parse : Str → Option Json)
    (options : ChatOptions) (t : TransportResult) :
    List FetchCall × List Str × Except JsError (Option Message) :=
  let url := getChatEndpoint sReq.apiEndpoint
  let hasAuth := sReq.apiKey ≠ []
  let body :=
    if isOllamaEndpoint sReq.apiEndpoint then
      ChatBody.ollama options.model options.messages options.stream
        options.temperature options.maxTokens
    else
      ChatBody.openai options.model options.messages options.stream
        options.temperature options.maxTokens
  let call : FetchCall := ⟨url, hasAuth, some body⟩
  let outcome : List Str × Except JsError (Option Message) :=
    match t with
    | .reject => ([], .error .fetchReject)
    | .resp ok status jsonBody chunks =>
      if ok = false then
        ([], .error (.error (errorMessageOf (jsonBody.getD (.obj [])) status)))
      else if options.stream = false then
        match jsonBody with
        | none => ([], .error .fetchReject)
        | some data =>
          if isOllamaEndpoint sDecode.apiEndpoint then
            ([], .ok ((data.get "message".data).bind asMessage))
          else
            match choicesMessageContent data with
            | none => ([], .error .typeError)
            | some content => ([], .ok (some ⟨"assistant".data, content⟩))
      else
        match chunks with
        | none => ([], .error (.error "No response body".data))
        | some cs =>
          let r := processStream parse (isOllamaEndpoint sDecode.apiEndpoint) cs
          (r.1, .ok (some ⟨"assistant".data, r.2⟩))
  ([call], outcome.1, outcome.2)

/-- `AIClient.fetchModels`, embedded as a pure function.  `toIso` stands
for the host primitive `created => new Date(created * 1000).toISOString()`.
The whole method body sits in a `try` whose `catch` returns `[]`, so the
function is total and collapses every failure to the empty list. -/
def fetchModels (s : OllamaSettings) (toIso : Int → Str)
    (t : TransportResult) : List FetchCall × List ModelInfo :=
  let call : FetchCall := ⟨getModelsEndpoint s.apiEndpoint, s.apiKey ≠ [], none⟩
  let models : List ModelInfo :=
    match t with
    | .reject => []
    | .resp ok _ jsonBody _ =>
      if ok = false then []
      else
        match jsonBody with
        | none => []   -- `response.json()` rejected; caught
        | some data =>
          if isOllamaEndpoint s.apiEndpoint then
            -- `return data.models || []`
            match data.get "models".data with
            | some (.arr xs) => xs.filterMap fun m =>
                some ⟨(m.getStr "name".data).getD [],
                      (m.getStr "modified_at".data).getD [],
                      ((m.get "size".data).bind
                        (fun v => match v with | .num n => some n | _ => none)).getD 0⟩
            | _ => []
          else
            -- `if (data.data) { return data.data.map(...) } return []`
            match data.get "data".data with
            | some (.arr xs) => xs.map fun m =>
                ⟨(m.getStr "id".data).getD [],
                 (match m.get "created".data with
                  | some (.num n) => if n ≠ 0 then toIso n else []
                  | _ => []),
                 0⟩
            | _ => []   -- falsy, or truthy non-array (`.map` throws; caught)
  ([call], models)

/-! ## Cancellation-handle lifecycle (`AIClient._abortController`)

The only writes to the `_abortController` field in this client are the
initialiser (`null`) and line 425 (`new AbortController()` at the start
of every `chat` call).  Settling — resolving or rejecting anywhere after
line 425 — performs no assignment, and `abort()`
(`this._abortController?.abort()`) calls `abort` on the current handle
without clearing the field.  Handles are identified by allocation
order. -/

structure ClientState where
  abortController : Option Nat   -- the currently referenced handle, if any
  nextHandle : Nat               -- allocation counter (model bookkeeping)
deriving DecidableEq, Repr

/-- Constructor: `_abortController: AbortController | null = null`. -/
def initClient : ClientState := ⟨none, 0⟩

/-- Line 425: `this._abortController = new AbortController()`. -/
def chatAcquire (st : ClientState) : ClientState :=
  ⟨some st.nextHandle, st.nextHandle + 1⟩

/-- The effect of a `chat` call settling (success, error, or
abort-induced rejection) on the handle field: no statement in the method
writes the field after line 425. -/
def chatSettle (st : ClientState) : ClientState := st

/-- `abort()`: signals the current handle when one exists; returns the
new state and whether an abort signal was sent.  The field is not
cleared. -/
def abortClient (st : ClientState) : ClientState × Bool :=
  (st, st.abortController.isSome)

/-! ## Conversation store (`src/features/conversation.ts`)

`Map<string, ConversationEntry>` is embedded as an association list with
first-match lookup; only the `messages` component matters to the claims. -/

/-- Lookup in the conversations map. -/
def lookupConv (convs : List (Str × List Message)) (noteId : Str) :
    Option (List Message) :=
  match convs with
  | [] => none
  | (k, v) :: rest => if k = noteId then some v else lookupConv rest noteId

/-- `ConversationHistory.getMessages`: `entry?.messages || []` (a present
entry's `messages` array is truthy in JavaScript even when empty). -/
def getMessages (convs : List (Str × List Message)) (noteId : Str) :
    List Message :=
  (lookupConv convs noteId).getD []

/-- JavaScript `messages.slice(-maxMessages)`: for a positive count the
last `maxMessages` elements; `-0` is `0`, so a zero count yields the
whole array. -/
def jsSliceLast (messages : List Message) (maxMessages : Nat) : List Message :=
  if maxMessages = 0 then messages
  else messages.drop (messages.length - maxMessages)

/-- `ConversationHistory.getConversationContext` (default cap 20). -/
def getConversationContext (convs : List (Str × List Message))
    (noteId : Str) (maxMessages : Nat := 20) : List Message :=
  let messages := getMessages convs noteId
  if messages.length ≤ maxMessages then messages
  else jsSliceLast messages maxMessages

/-! ## Concrete fixtures for witnesses and counterexamples -/

/-- The settled value of a `chat` call that resolved (rather than
rejected), used to compare outcomes concretely. -/
def okMessage : Except JsError (Option Message) → Option Message
  | .ok m => m
  | .error _ => none

/-- A valid local-dialect stream line: the JSON text
`{"message":{"content":"Hel"}}` (braces written via escapes). -/
def ollamaLineA : Str := "\x7b\"message\":\x7b\"content\":\"Hel\"\x7d\x7d".data

/-- The value `JSON.parse` yields on `ollamaLineA`. -/
def ollamaJsonA : Json :=
  .obj [("message".data, .obj [("content".data, .str "Hel".data)])]

/-- A second valid local-dialect stream line, carrying the delta `lo!`. -/
def ollamaLineB : Str := "\x7b\"message\":\x7b\"content\":\"lo!\"\x7d\x7d".data

/-- The value `JSON.parse` yields on `ollamaLineB`. -/
def ollamaJsonB : Json :=
  .obj [("message".data, .obj [("content".data, .str "lo!".data)])]

/-- A fixture for the `JSON.parse` parameter, agreeing with real JSON
syntax on every string the witnesses feed it: `ollamaLineA` and
`ollamaLineB` are valid JSON with the listed values, while every other
string used below (`notjson`, and the two halves of `ollamaLineA`, each
a truncated object) is not valid JSON and makes `JSON.parse` throw. -/
def parseFixture (s : Str) : Option Json :=
  if s = ollamaLineA then some ollamaJsonA
  else if s = ollamaLineB then some ollamaJsonB
  else none

/-- The first half of `ollamaLineA` (a truncated, hence invalid, JSON
text). -/
def ollamaLineA1 : Str := ollamaLineA.take 14

/-- The second half of `ollamaLineA` (invalid JSON on its own). -/
def ollamaLineA2 : Str := ollamaLineA.drop 14

/-- A locally-served endpoint configuration. -/
def settingsLocal : OllamaSettings :=
  ⟨"http://localhost:11434".data, [], "llama3".data⟩

/-- A hosted OpenAI-compatible endpoint configuration. -/
def settingsRemote : OllamaSettings :=
  ⟨"https://api.example.com".data, "sk-test".data, "gpt-4o".data⟩

/-- A two-message request fixture with streaming disabled. -/
def optionsNonStream : ChatOptions :=
  ⟨"m1".data, [⟨"system".data, "ctx".data⟩, ⟨"user".data, "hi".data⟩],
    false, none, none⟩

/-- A request fixture with streaming enabled. -/
def optionsStream : ChatOptions :=
  ⟨"m1".data, [⟨"user".data, "hi".data⟩], true, none, none⟩

/-- A response payload carrying both a local-dialect `message` field and
an OpenAI-compatible `choices` field, with different contents, so the two
decode dialects are distinguishable on it. -/
def payloadBoth : Json :=
  .obj [("message".data, msgToJson ⟨"assistant".data, "from-message".data⟩),
        ("choices".data, .arr [.obj [("message".data,
          .obj [("content".data, .str "from-choices".data)])]])]

/-- Endpoint resolution schema shared by `getChatEndpoint` and
`getModelsEndpoint`: dialect-dependent choice of path suffix over the
normalised base URL.  Proof-side generalisation, definitionally equal to
each resolver at its suffix triple. -/
def resolveWith (sO sV sN apiEndpoint : Str) : Str :=
  let base := getBaseUrl apiEndpoint
  if isOllamaEndpoint apiEndpoint then base ++ sO
  else if jsIncludes base "/v1".data then base ++ sV
  else base ++ sN

/-- Side conditions on a path suffix under which appending it interacts
predictably with trimming, slash-stripping, and the dialect heuristics:
it starts with `/`, ends with a non-whitespace non-slash character, and
contains none of the local-endpoint marker substrings. -/
def cleanSuffix (sfx : Str) : Bool :=
  decide (sfx.head? = some '/') &&
  (match sfx.getLast? with
   | some c => !(isWs c) && !(decide (c = '/'))
   | none => false) &&
  !(jsIncludes sfx "localhost".data) &&
  !(jsIncludes sfx "127.0.0.1".data) &&
  !(jsIncludes sfx "11434".data)

/-! # Theorems -/

/-! ## Stream-decode structure lemmas -/

/-- The per-chunk fold emits exactly the per-line deltas, in line order,
and extends the content buffer by their concatenation. -/
theorem processChunk_eq (parse : Str → Option Json) (isOllama : Bool)
    (acc : List Str × Str) (text : Str) :
    processChunk parse isOllama acc text =
      (acc.1 ++ (chunkLines text).filterMap (lineDelta parse isOllama),
       acc.2 ++ ((chunkLines text).filterMap (lineDelta parse isOllama)).flatten) := by
  unfold processChunk
  generalize chunkLines text = lines
  induction lines generalizing acc with
  | nil => simp
  | cons l ls ih =>
    simp only [List.foldl_cons, List.filterMap_cons]
    cases h : lineDelta parse isOllama l with
    | none => simp [h, ih]
    | some c => simp [h, ih, List.append_assoc]

/-- `_processStream` computes the delta sequence `streamDeltas` and a
final content equal to its concatenation. -/
theorem processStream_eq (parse : Str → Option Json) (isOllama : Bool)
    (chunks : List Str) :
    processStream parse isOllama chunks =
      (streamDeltas parse isOllama chunks,
       (streamDeltas parse isOllama chunks).flatten) := by
  unfold processStream
  suffices h : ∀ acc, chunks.foldl (processChunk parse isOllama) acc =
      (acc.1 ++ streamDeltas parse isOllama chunks,
       acc.2 ++ (streamDeltas parse isOllama chunks).flatten) by
    simpa using h ([], [])
  induction chunks with
  | nil => intro acc; simp [streamDeltas]
  | cons c cs ih =>
    intro acc
    simp [List.foldl_cons, processChunk_eq, ih, streamDeltas,
      List.flatMap_cons, List.flatten_append, List.append_assoc]

/-- `split('\n')` never yields the empty list. -/
theorem splitNL_ne_nil (s : Str) : splitNL s ≠ [] := by
  cases s with
  | nil => simp [splitNL]
  | cons c rest =>
    simp only [splitNL]
    cases h : splitNL rest with
    | nil => simp
    | cons l ls =>
      by_cases hc : c = '\n' <;> simp [hc]

/-- Splitting distributes over a newline that joins two fragments. -/
theorem splitNL_append_nl (a b : Str) :
    splitNL (a ++ '\n' :: b) = splitNL a ++ splitNL b := by
  induction a with
  | nil =>
    simp only [List.nil_append, splitNL]
    cases h : splitNL b with
    | nil => exact absurd h (splitNL_ne_nil b)
    | cons l ls => simp
  | cons c a' ih =>
    obtain ⟨l, ls, hsp⟩ : ∃ l ls, splitNL a' = l :: ls := by
      cases hq : splitNL a' with
      | nil => exact absurd hq (splitNL_ne_nil a')
      | cons x xs => exact ⟨x, xs, rfl⟩
    simp only [List.cons_append, splitNL, List.append_eq]
    rw [ih, hsp]
    by_cases hc : c = '\n' <;> simp [hc, List.cons_append]

/-- A fragment with no line break is a single line. -/
theorem splitNL_no_nl (s : Str) (h : '\n' ∉ s) : splitNL s = [s] := by
  induction s with
  | nil => simp [splitNL]
  | cons c rest ih =>
    simp only [List.mem_cons, not_or] at h
    simp only [splitNL, ih h.2]
    simp [Ne.symm h.1]

/-- The blank-line filter drops the empty fragment. -/
theorem keepLine_nil : keepLine [] = false := by decide

/-- Kept lines distribute over a newline join. -/
theorem chunkLines_append_nl (a b : Str) :
    chunkLines (a ++ '\n' :: b) = chunkLines a ++ chunkLines b := by
  simp [chunkLines, splitNL_append_nl, List.filter_append]

/-- The empty chunk contributes no kept line. -/
theorem chunkLines_nil : chunkLines [] = [] := by decide

/-- A trailing newline adds no kept line. -/
theorem chunkLines_append_nl_nil (a : Str) :
    chunkLines (a ++ ['\n']) = chunkLines a := by
  have : a ++ ['\n'] = a ++ '\n' :: [] := rfl
  rw [this, chunkLines_append_nl]
  simp [chunkLines, splitNL, keepLine_nil]

/-! ## C1: streaming delivery order and reassembly -/

/-- C1: for every streaming chat call that completes normally (a success
response whose body yields a chunk sequence), the token-callback
invocations are delivered in decode order (they are the ordered list the
embedding returns), they all occur before the call resolves (the resolved
message is a function of the completed list), and the concatenation of
the callback arguments equals the content of the returned final message,
whose role is `assistant`. -/
theorem chat_streaming_order_and_concat
    (sReq sDecode : OllamaSettings) (parse : Str → Option Json)
    (options : ChatOptions) (status : Nat) (jsonBody : Option Json)
    (cs : List Str) (hstream : options.stream = true) :
    (chat sReq sDecode parse options (.resp true status jsonBody (some cs))).2.2 =
      .ok (some ⟨"assistant".data,
        ((chat sReq sDecode parse options
            (.resp true status jsonBody (some cs))).2.1).flatten⟩) := by
  simp [chat, hstream, processStream_eq]

/-- Witness for C1: a concrete streaming call whose body carries two
local-dialect lines in one chunk. -/
theorem chat_streaming_order_and_concat_witness :
    (chat settingsLocal settingsLocal parseFixture optionsStream
        (.resp true 200 none (some [ollamaLineA ++ '\n' :: ollamaLineB]))).2.2 =
      .ok (some ⟨"assistant".data,
        ((chat settingsLocal settingsLocal parseFixture optionsStream
            (.resp true 200 none
              (some [ollamaLineA ++ '\n' :: ollamaLineB]))).2.1).flatten⟩) :=
  chat_streaming_order_and_concat settingsLocal settingsLocal parseFixture
    optionsStream 200 none [ollamaLineA ++ '\n' :: ollamaLineB] rfl

/-! ## C2: chunk-segmentation invariance -/

/-- Counterexample to C2: the decoder re-splits each chunk into lines
independently (there is no cross-chunk line accumulator), so delivering
the same bytes as one chunk versus split mid-line across two chunks
yields different delta sequences: the intact line yields its delta, while
both halves fail `JSON.parse` and are skipped. -/
theorem chunk_segmentation_counterexample :
    [ollamaLineA].flatten = [ollamaLineA1, ollamaLineA2].flatten ∧
    (processStream parseFixture true [ollamaLineA]).1 ≠
      (processStream parseFixture true [ollamaLineA1, ollamaLineA2]).1 := by
  constructor
  · simp [ollamaLineA1, ollamaLineA2]
  · decide

/-- C2 amended: the delta sequence (and hence the assembled message) is
invariant under every chunk segmentation that splits only at line-break
positions — moving a line break from the interior of one chunk to a chunk
boundary never changes the decode — but not under segmentations that
split inside a line (see the counterexample). -/
theorem processStream_split_at_newline (parse : Str → Option Json)
    (isOllama : Bool) (pre post : List Str) (a b : Str) :
    processStream parse isOllama (pre ++ (a ++ '\n' :: b) :: post) =
      processStream parse isOllama (pre ++ (a ++ ['\n']) :: b :: post) := by
  simp [processStream_eq, streamDeltas, List.flatMap_append,
    chunkLines_append_nl, chunkLines_append_nl_nil, chunkLines_nil,
    List.filterMap_append, List.append_assoc]

/-! ## C5: malformed-line resilience -/

/-- C5: a stream body consisting of a syntactically invalid JSON line
between two valid delta-bearing lines decodes to exactly the two valid
deltas; the decode is total (the per-line `catch` turns the parse throw
into a skip), so no error is raised and the stream is not cut short. -/
theorem stream_invalid_line_skipped (parse : Str → Option Json)
    (isOllama : Bool) (l1 l2 l3 d1 d3 : Str) (s2 : Str)
    (hn1 : '\n' ∉ l1) (hn2 : '\n' ∉ l2) (hn3 : '\n' ∉ l3)
    (hk1 : keepLine l1 = true) (hk2 : keepLine l2 = true)
    (hk3 : keepLine l3 = true)
    (h1 : lineDelta parse isOllama l1 = some d1)
    (h2data : lineData l2 = some s2) (h2bad : parse s2 = none)
    (h3 : lineDelta parse isOllama l3 = some d3) :
    processStream parse isOllama [l1 ++ '\n' :: (l2 ++ '\n' :: l3)] =
      ([d1, d3], d1 ++ d3) := by
  have hbad : lineDelta parse isOllama l2 = none := by
    simp [lineDelta, h2data, h2bad]
  have hlines : chunkLines (l1 ++ '\n' :: (l2 ++ '\n' :: l3)) = [l1, l2, l3] := by
    rw [chunkLines_append_nl, chunkLines_append_nl]
    simp [chunkLines, splitNL_no_nl _ hn1, splitNL_no_nl _ hn2,
      splitNL_no_nl _ hn3, hk1, hk2, hk3]
  rw [processStream_eq]
  simp [streamDeltas, hlines, h1, hbad, h3, List.filterMap_cons]

/-- Witness for C5: `ollamaLineA`, then the invalid line `notjson`, then
`ollamaLineB`, as one chunk. -/
theorem stream_invalid_line_skipped_witness :
    processStream parseFixture true
        [ollamaLineA ++ '\n' :: ("notjson".data ++ '\n' :: ollamaLineB)] =
      (["Hel".data, "lo!".data], "Hel".data ++ "lo!".data) :=
  stream_invalid_line_skipped parseFixture true ollamaLineA "notjson".data
    ollamaLineB "Hel".data "lo!".data "notjson".data
    (by decide) (by decide) (by decide) (by decide) (by decide) (by decide)
    rfl rfl rfl rfl

/-! ## C3: no pre-flight validation exists -/

/-- Counterexample to C3: a call with an empty model identifier and a
call with an empty message list each issue one transport request (not
zero), and no configuration-validation failure occurs before it — the
client contains no such check. -/
theorem chat_empty_request_counterexample :
    (chat settingsLocal settingsLocal parseFixture
        ⟨[], [⟨"user".data, "hi".data⟩], false, none, none⟩
        TransportResult.reject).1.length = 1 ∧
    (chat settingsLocal settingsLocal parseFixture
        ⟨"x".data, [], false, none, none⟩
        TransportResult.reject).1.length = 1 := by
  constructor <;> rfl

/-- C3 amended: `chat` performs no client-side validation — every call,
in particular one with an empty model identifier or an empty message
list, issues exactly one transport request, whose body carries the given
model and messages unchanged; no `ConfigurationError` failure mode exists
in the code (the embedding's error type enumerates every `throw` site of
the method). -/
theorem chat_no_validation (sReq sDecode : OllamaSettings)
    (parse : Str → Option Json) (options : ChatOptions)
    (t : TransportResult) :
    (chat sReq sDecode parse options t).1.length = 1 ∧
    ∃ b : ChatBody,
      (chat sReq sDecode parse options t).1 =
        [⟨getChatEndpoint sReq.apiEndpoint, sReq.apiKey ≠ [], some b⟩] ∧
      b.modelOf = options.model ∧ b.messagesOf = options.messages := by
  refine ⟨by simp [chat], ?_⟩
  by_cases ho : isOllamaEndpoint sReq.apiEndpoint
  · exact ⟨ChatBody.ollama options.model options.messages options.stream
      options.temperature options.maxTokens, by simp [chat, ho], rfl, rfl⟩
  · exact ⟨ChatBody.openai options.model options.messages options.stream
      options.temperature options.maxTokens, by simp [chat, ho], rfl, rfl⟩

/-! ## C4: non-streaming decode per dialect -/

/-- C4: for a non-streaming call on a success response, the local dialect
resolves with the message object found at the payload's `message` field,
and the OpenAI-compatible dialect resolves with a message of role
`assistant` whose content is exactly `choices[0].message.content`. -/
theorem chat_nonstreaming_decode (sReq sDecode : OllamaSettings)
    (parse : Str → Option Json) (options : ChatOptions) (status : Nat)
    (ch : Option (List Str)) (data : Json)
    (hstream : options.stream = false) :
    (isOllamaEndpoint sDecode.apiEndpoint = true →
      ∀ m : Message, data.get "message".data = some (msgToJson m) →
        (chat sReq sDecode parse options (.resp true status (some data) ch)).2.2 =
          .ok (some m)) ∧
    (isOllamaEndpoint sDecode.apiEndpoint = false →
      ∀ content : Str, choicesMessageContent data = some content →
        (chat sReq sDecode parse options (.resp true status (some data) ch)).2.2 =
          .ok (some ⟨"assistant".data, content⟩)) := by
  constructor
  · intro hol m hm
    have hasm : asMessage (msgToJson m) = some m := by
      simp [asMessage, msgToJson, Json.getStr, Json.get, lookupField]
    simp [chat, hstream, hol, hm, hasm]
  · intro hol content hc
    simp [chat, hstream, hol, hc]

/-- Witness for C4: the two dialects decoding the same concrete fixture
payload, which carries distinct `message` and `choices` contents. -/
theorem chat_nonstreaming_decode_witness :
    (chat settingsLocal settingsLocal parseFixture optionsNonStream
        (.resp true 200 (some payloadBoth) none)).2.2 =
      .ok (some ⟨"assistant".data, "from-message".data⟩) ∧
    (chat settingsRemote settingsRemote parseFixture optionsNonStream
        (.resp true 200 (some payloadBoth) none)).2.2 =
      .ok (some ⟨"assistant".data, "from-choices".data⟩) :=
  ⟨(chat_nonstreaming_decode settingsLocal settingsLocal parseFixture
      optionsNonStream 200 none payloadBoth rfl).1 rfl
      ⟨"assistant".data, "from-message".data⟩ rfl,
   (chat_nonstreaming_decode settingsRemote settingsRemote parseFixture
      optionsNonStream 200 none payloadBoth rfl).2 rfl
      "from-choices".data rfl⟩

/-! ## C6: fetchModels never rejects -/

/-- C6: `fetchModels` is a total function into model-descriptor lists —
the embedding's type records that it resolves on every transport outcome
and payload shape — and it resolves to the empty collection when the
transport rejects, when the status is non-success, and when the response
body fails to decode as JSON. -/
theorem fetchModels_never_rejects (s : OllamaSettings) (toIso : Int → Str) :
    (fetchModels s toIso .reject).2 = [] ∧
    (∀ status jb ch, (fetchModels s toIso (.resp false status jb ch)).2 = []) ∧
    (∀ status ch, (fetchModels s toIso (.resp true status none ch)).2 = []) := by
  refine ⟨rfl, fun st jb ch => by simp [fetchModels], fun st ch => by simp [fetchModels]⟩

/-! ## C7: cancellation-handle lifecycle -/

/-- Counterexample to C7: after a chat call settles, the handle field
still holds the handle allocated at call start — no statement in the
method (nor in `abort()`) ever resets it to the absent state. -/
theorem abortController_not_cleared_counterexample :
    (chatSettle (chatAcquire initClient)).abortController ≠ none ∧
    (abortClient (chatSettle (chatAcquire initClient))).1.abortController ≠ none := by
  decide

/-- C7 amended: every new chat call allocates a fresh handle (the
allocation counter strictly increases, so the new handle differs from
every previously held one), the field references at most one handle at a
time by construction, and calling `abort` when no handle exists is a
no-op; but the handle is never reset to the absent state — settling
leaves it in place and `abort()` signals it without clearing the
field. -/
theorem abortController_lifecycle (st : ClientState) :
    (chatAcquire st).abortController = some st.nextHandle ∧
    st.nextHandle < (chatAcquire st).nextHandle ∧
    chatSettle (chatAcquire st) = chatAcquire st ∧
    (abortClient (chatAcquire st)).1 = chatAcquire st ∧
    (abortClient (chatAcquire st)).2 = true ∧
    (∀ n, abortClient ⟨none, n⟩ = (⟨none, n⟩, false)) := by
  refine ⟨rfl, Nat.lt_succ_self _, rfl, rfl, rfl, fun n => rfl⟩

/-! ## C10: conversation-context truncation -/

/-- C10: `getConversationContext` returns the whole stored message list
when its length is at most the cap, otherwise exactly the last `cap`
messages in stored order (the suffix obtained by dropping all but the
last `cap`); an unknown note identifier yields the empty list.  Stated
for every positive cap, which includes the default of 20. -/
theorem getConversationContext_spec (convs : List (Str × List Message))
    (noteId : Str) (cap : Nat) (hcap : 0 < cap) :
    ((getMessages convs noteId).length ≤ cap →
      getConversationContext convs noteId cap = getMessages convs noteId) ∧
    (cap < (getMessages convs noteId).length →
      getConversationContext convs noteId cap =
        (getMessages convs noteId).drop ((getMessages convs noteId).length - cap) ∧
      (getConversationContext convs noteId cap).length = cap) ∧
    (lookupConv convs noteId = none →
      getConversationContext convs noteId cap = []) := by
  refine ⟨fun hle => by simp [getConversationContext, hle], fun hlt => ?_, fun hnone => ?_⟩
  · have hif : ¬ (getMessages convs noteId).length ≤ cap := by omega
    have hne : cap ≠ 0 := by omega
    constructor
    · simp [getConversationContext, hif, jsSliceLast, hne]
    · simp only [getConversationContext, hif, if_false, jsSliceLast, hne]
      rw [List.length_drop]
      omega
  · simp [getConversationContext, getMessages, hnone]

/-- Witness for C10: a three-message conversation truncated to cap 2, and
an unknown note identifier. -/
theorem getConversationContext_spec_witness :
    getConversationContext
        [("note1".data, [⟨"user".data, "a".data⟩, ⟨"assistant".data, "b".data⟩,
          ⟨"user".data, "c".data⟩])] "note1".data 2 =
      [⟨"assistant".data, "b".data⟩, ⟨"user".data, "c".data⟩] ∧
    getConversationContext [] "note1".data 2 = [] := by
  constructor
  · have h := (getConversationContext_spec
      [("note1".data, [⟨"user".data, "a".data⟩, ⟨"assistant".data, "b".data⟩,
        ⟨"user".data, "c".data⟩])] "note1".data 2 (by decide)).2.1 (by decide)
    exact h.1.trans (by decide)
  · exact (getConversationContext_spec [] "note1".data 2 (by decide)).2.2 rfl

/-! ## C9: settings updates and in-flight calls -/

/-- Counterexample to C9: the decode dialect is re-read from the current
settings after the response arrives (`this._isOllama()` at lines 471 and
489 runs after an `await`), so an `updateSettings` performed while the
call was suspended changes which field of the payload the call returns:
with the original local settings still in force the fixture payload
decodes to its `message` field, after an in-flight switch to a hosted
endpoint it decodes to `choices[0].message.content`. -/
theorem updateSettings_in_flight_counterexample :
    okMessage (chat settingsLocal settingsRemote parseFixture optionsNonStream
        (.resp true 200 (some payloadBoth) none)).2.2 ≠
      okMessage (chat settingsLocal settingsLocal parseFixture optionsNonStream
        (.resp true 200 (some payloadBoth) none)).2.2 := by
  decide

/-- C9 amended: an in-flight `updateSettings` cannot affect the request
side of a running call — the endpoint, authorization header, and body are
computed synchronously from the settings at call start — and it affects
the response side only through the dialect classification of the new
endpoint: two decode-time settings with the same classification yield
identical calls. -/
theorem updateSettings_in_flight (sReq sA sB : OllamaSettings)
    (parse : Str → Option Json) (options : ChatOptions)
    (t : TransportResult) :
    (chat sReq sA parse options t).1 = (chat sReq sB parse options t).1 ∧
    (isOllamaEndpoint sA.apiEndpoint = isOllamaEndpoint sB.apiEndpoint →
      chat sReq sA parse options t = chat sReq sB parse options t) := by
  refine ⟨rfl, fun h => ?_⟩
  simp only [chat, h]

/-- Witness for C9's amended statement at concrete inputs with matching
classification. -/
theorem updateSettings_in_flight_witness :
    chat settingsLocal
        ⟨"http://127.0.0.1:8080".data, [], "m".data⟩ parseFixture
        optionsNonStream (.resp true 200 (some payloadBoth) none) =
      chat settingsLocal settingsLocal parseFixture optionsNonStream
        (.resp true 200 (some payloadBoth) none) :=
  (updateSettings_in_flight settingsLocal
      ⟨"http://127.0.0.1:8080".data, [], "m".data⟩ settingsLocal parseFixture
      optionsNonStream (.resp true 200 (some payloadBoth) none)).2 (by decide)

/-! ## C8: endpoint resolution is not idempotent -/

/-- Counterexample to C8: resolving an already-resolved OpenAI-compatible
chat endpoint appends the versioned path again instead of returning it
unchanged (the resolved URL contains `/v1`, so the second application
takes the versioned branch). -/
theorem endpoint_idempotence_counterexample :
    getChatEndpoint (getChatEndpoint "https://api.example.com".data) ≠
      getChatEndpoint "https://api.example.com".data := by
  decide

/-- A trimmed string does not begin with whitespace: its leading
`dropWhile` is trivial. -/
theorem dropWhile_eq_self_of_jsTrim (e : Str) (h : jsTrim e = e) :
    List.dropWhile isWs e = e := by
  have hsub : (List.dropWhile isWs e).Sublist e :=
    (List.dropWhile_suffix (l := e) isWs).sublist
  refine hsub.eq_of_length ?_
  have h1 : (List.dropWhile isWs e).length ≤ e.length := hsub.length_le
  have h2 : (jsTrim e).length ≤ (List.dropWhile isWs e).length := by
    unfold jsTrim
    have := (List.dropWhile_suffix (l := (List.dropWhile isWs e).reverse)
      isWs).sublist.length_le
    simpa using this
  rw [h] at h2
  omega

/-- A trimmed string does not end with whitespace: the leading
`dropWhile` of its reversal is trivial. -/
theorem dropWhile_reverse_eq_self_of_jsTrim (e : Str) (h : jsTrim e = e) :
    List.dropWhile isWs e.reverse = e.reverse := by
  have hd := dropWhile_eq_self_of_jsTrim e h
  have hrev : (List.dropWhile isWs e.reverse).reverse = e := by
    have h' := h
    unfold jsTrim at h'
    rwa [hd] at h'
  calc List.dropWhile isWs e.reverse
      = ((List.dropWhile isWs e.reverse).reverse).reverse := by
        rw [List.reverse_reverse]
    _ = e.reverse := by rw [hrev]

/-- Appending a suffix that starts with `/` and ends in a
non-whitespace character preserves trimmedness. -/
theorem jsTrim_append (e sfx : Str) (h : jsTrim e = e)
    (hh : sfx.head? = some '/')
    (hl : ∃ c t, sfx.reverse = c :: t ∧ isWs c = false) :
    jsTrim (e ++ sfx) = e ++ sfx := by
  obtain ⟨c, tl, hrev, hwc⟩ := hl
  have hd := dropWhile_eq_self_of_jsTrim e h
  have step1 : List.dropWhile isWs (e ++ sfx) = e ++ sfx := by
    rw [List.dropWhile_append]
    cases e with
    | nil =>
      simp only [List.isEmpty_nil, List.dropWhile_nil, if_true, List.nil_append]
      cases sfx with
      | nil => simp at hh
      | cons x xs =>
        simp only [List.head?_cons, Option.some.injEq] at hh
        subst hh
        rw [List.dropWhile_cons]
        simp [isWs]
    | cons y ys =>
      rw [hd]
      simp
  have step2 : List.dropWhile isWs (e ++ sfx).reverse = (e ++ sfx).reverse := by
    rw [List.reverse_append, hrev, List.cons_append, List.dropWhile_cons, hwc]
    simp
  unfold jsTrim
  rw [step1, step2, List.reverse_reverse]

/-- A URL already in normal form is a fixed point of `getBaseUrl`. -/
theorem getBaseUrl_eq_self (u : Str) (ht : jsTrim u = u)
    (hns : endsWithSlash u = false) : getBaseUrl u = u := by
  simp [getBaseUrl, ht, hns]

/-- An occurrence of `p` inside `l1 ++ l2` lies in `l1`, lies in `l2`, or
straddles the boundary, decomposing `p` into a nonempty suffix of `l1`
followed by a nonempty prefix of `l2`. -/
theorem infixAppendCases {α : Type} {p l1 l2 : List α}
    (h : p <:+: l1 ++ l2) :
    p <:+: l1 ∨ p <:+: l2 ∨
      ∃ s1 s2, p = s1 ++ s2 ∧ s1 ≠ [] ∧ s2 ≠ [] ∧ s1 <:+ l1 ∧ s2 <+: l2 := by
  obtain ⟨s, t, hst⟩ := h
  have hst' : s ++ (p ++ t) = l1 ++ l2 := by rw [← List.append_assoc]; exact hst
  rcases List.append_eq_append_iff.mp hst' with ⟨a, hl1, hpt⟩ | ⟨c', hs, hl2⟩
  · rcases List.append_eq_append_iff.mp hpt with ⟨x, ha, ht2⟩ | ⟨y, hp, hl2'⟩
    · exact Or.inl ⟨s, x, by rw [List.append_assoc, ← ha, ← hl1]⟩
    · by_cases hy : y = []
      · subst hy
        rw [List.append_nil] at hp
        exact Or.inl ⟨s, [], by rw [List.append_nil, hp, ← hl1]⟩
      · by_cases ha0 : a = []
        · subst ha0
          rw [List.nil_append] at hp
          exact Or.inr (Or.inl ⟨[], t, by rw [List.nil_append, hp, ← hl2']⟩)
        · exact Or.inr (Or.inr ⟨a, y, hp, ha0, hy, ⟨s, hl1.symm⟩, ⟨t, hl2'.symm⟩⟩)
  · exact Or.inr (Or.inl ⟨c', t, by rw [List.append_assoc, ← hl2]⟩)

/-- Unpacking of the `cleanSuffix` side conditions. -/
theorem cleanSuffix_parts (sfx : Str) (h : cleanSuffix sfx = true) :
    sfx.head? = some '/' ∧
    (∃ c t, sfx.reverse = c :: t ∧ isWs c = false ∧ c ≠ '/') ∧
    jsIncludes sfx "localhost".data = false ∧
    jsIncludes sfx "127.0.0.1".data = false ∧
    jsIncludes sfx "11434".data = false := by
  unfold cleanSuffix at h
  simp only [Bool.and_eq_true, decide_eq_true_eq, Bool.not_eq_true'] at h
  obtain ⟨⟨⟨⟨hh, hlast⟩, h1⟩, h2⟩, h3⟩ := h
  refine ⟨hh, ?_, h1, h2, h3⟩
  cases hgl : sfx.getLast? with
  | none => rw [hgl] at hlast; simp at hlast
  | some c =>
    rw [hgl] at hlast
    simp only [Bool.and_eq_true, Bool.not_eq_true', decide_eq_false_iff_not] at hlast
    obtain ⟨hw, hc⟩ := hlast
    have hrev : sfx.reverse.head? = some c := by
      rw [List.head?_reverse]; exact hgl
    cases hr : sfx.reverse with
    | nil => rw [hr] at hrev; simp at hrev
    | cons x xs =>
      rw [hr] at hrev
      simp only [List.head?_cons, Option.some.injEq] at hrev
      subst hrev
      exact ⟨x, xs, rfl, hw, hc⟩

/-- Appending a slash-initial suffix that neither contains the substring
`p` nor lets `p` straddle the boundary (no `/` occurs in `p`) leaves the
containment check unchanged. -/
theorem jsIncludes_append_eq (e sfx p : Str) (hsfx : sfx.head? = some '/')
    (hp : '/' ∉ p) (hps : jsIncludes sfx p = false) :
    jsIncludes (e ++ sfx) p = jsIncludes e p := by
  unfold jsIncludes at hps ⊢
  have hnotsfx : ¬ p <:+: sfx := of_decide_eq_false hps
  apply decide_eq_decide.mpr
  constructor
  · intro h
    rcases infixAppendCases h with hin | hin | ⟨s1, s2, hps', hs1ne, hs2ne, hs1, hs2⟩
    · exact hin
    · exact absurd hin hnotsfx
    · exfalso
      obtain ⟨t2, hts⟩ := hs2
      cases s2 with
      | nil => exact hs2ne rfl
      | cons x xs =>
        have hx : sfx.head? = some x := by
          rw [← hts]; rfl
        rw [hsfx] at hx
        injection hx with hx
        apply hp
        rw [hps', hx]
        exact List.mem_append.mpr (Or.inr (List.mem_cons_self _ _))
  · intro h
    exact h.trans (List.prefix_append e sfx).isInfix

/-- Containment is preserved by appending on the right. -/
theorem jsIncludes_append_left (e sfx p : Str) (h : jsIncludes e p = true) :
    jsIncludes (e ++ sfx) p = true := by
  unfold jsIncludes at h ⊢
  exact decide_eq_true
    ((of_decide_eq_true h).trans (List.prefix_append e sfx).isInfix)

/-- Containment in the appended suffix gives containment in the whole. -/
theorem jsIncludes_append_right (e sfx p : Str) (h : jsIncludes sfx p = true) :
    jsIncludes (e ++ sfx) p = true := by
  unfold jsIncludes at h ⊢
  exact decide_eq_true
    ((of_decide_eq_true h).trans (List.suffix_append e sfx).isInfix)

/-- Appending a marker-free slash-initial suffix does not change the
dialect classification. -/
theorem isOllamaEndpoint_append (e sfx : Str) (hsfx : sfx.head? = some '/')
    (h1 : jsIncludes sfx "localhost".data = false)
    (h2 : jsIncludes sfx "127.0.0.1".data = false)
    (h3 : jsIncludes sfx "11434".data = false) :
    isOllamaEndpoint (e ++ sfx) = isOllamaEndpoint e := by
  unfold isOllamaEndpoint
  rw [jsIncludes_append_eq e sfx _ hsfx (by decide) h1,
      jsIncludes_append_eq e sfx _ hsfx (by decide) h2,
      jsIncludes_append_eq e sfx _ hsfx (by decide) h3]

/-- Appending something nonempty changes a list. -/
theorem append_ne_self_of_ne_nil (l s : Str) (hs : s ≠ []) : l ++ s ≠ l := by
  intro h
  have hlen := congrArg List.length h
  have h2 : l.length + s.length = l.length := by simpa using hlen
  have h3 : s.length = 0 := by omega
  exact hs (List.length_eq_zero.mp h3)

/-- Re-applying an endpoint resolver to its own output appends the
dialect-appropriate suffix a second time. -/
theorem resolveWith_twice (sO sV sN e : Str)
    (h1 : jsTrim e = e) (h2 : endsWithSlash e = false)
    (hO : cleanSuffix sO = true) (hV : cleanSuffix sV = true)
    (hN : cleanSuffix sN = true)
    (hNv1 : jsIncludes sN "/v1".data = true) :
    resolveWith sO sV sN (resolveWith sO sV sN e) =
      resolveWith sO sV sN e ++ (if isOllamaEndpoint e then sO else sV) := by
  obtain ⟨hOh, hOr, hOl1, hOl2, hOl3⟩ := cleanSuffix_parts sO hO
  obtain ⟨hVh, hVr, hVl1, hVl2, hVl3⟩ := cleanSuffix_parts sV hV
  obtain ⟨hNh, hNr, hNl1, hNl2, hNl3⟩ := cleanSuffix_parts sN hN
  have hbase : getBaseUrl e = e := getBaseUrl_eq_self e h1 h2
  have key : ∀ sfx : Str, sfx.head? = some '/' →
      (∃ c t, sfx.reverse = c :: t ∧ isWs c = false ∧ c ≠ '/') →
      jsIncludes sfx "localhost".data = false →
      jsIncludes sfx "127.0.0.1".data = false →
      jsIncludes sfx "11434".data = false →
      getBaseUrl (e ++ sfx) = e ++ sfx ∧
      isOllamaEndpoint (e ++ sfx) = isOllamaEndpoint e := by
    rintro sfx hh ⟨c, t, hr, hw, hslash⟩ p1 p2 p3
    have htrim : jsTrim (e ++ sfx) = e ++ sfx :=
      jsTrim_append e sfx h1 hh ⟨c, t, hr, hw⟩
    have hlast : (e ++ sfx).getLast? = some c := by
      rw [List.getLast?_eq_head?_reverse, List.reverse_append, hr]; rfl
    have hnoslash : endsWithSlash (e ++ sfx) = false := by
      unfold endsWithSlash
      rw [hlast]
      simp [hslash]
    exact ⟨getBaseUrl_eq_self _ htrim hnoslash,
      isOllamaEndpoint_append e sfx hh p1 p2 p3⟩
  cases hol : isOllamaEndpoint e with
  | true =>
    have hres : resolveWith sO sV sN e = e ++ sO := by
      simp [resolveWith, hbase, hol]
    obtain ⟨hb, ho⟩ := key sO hOh hOr hOl1 hOl2 hOl3
    rw [hres]
    simp [resolveWith, hb, ho, hol]
  | false =>
    cases hv : jsIncludes e "/v1".data with
    | true =>
      have hres : resolveWith sO sV sN e = e ++ sV := by
        simp [resolveWith, hbase, hol, hv]
      obtain ⟨hb, ho⟩ := key sV hVh hVr hVl1 hVl2 hVl3
      have hv1r : jsIncludes (e ++ sV) "/v1".data = true :=
        jsIncludes_append_left e sV _ hv
      rw [hres]
      simp [resolveWith, hb, ho, hol, hv1r]
    | false =>
      have hres : resolveWith sO sV sN e = e ++ sN := by
        simp [resolveWith, hbase, hol, hv]
      obtain ⟨hb, ho⟩ := key sN hNh hNr hNl1 hNl2 hNl3
      have hv1r : jsIncludes (e ++ sN) "/v1".data = true :=
        jsIncludes_append_right e sN _ hNv1
      rw [hres]
      simp [resolveWith, hb, ho, hol, hv1r]

/-- C8 amended: endpoint resolution is not idempotent.  For every
configured URL in normal form (trimmed, no trailing slash), re-resolving
the already-resolved chat or model-listing endpoint appends the
dialect's relative path a second time — the local `api` path for
local-classified URLs, the unversioned OpenAI-compatible path otherwise
(the resolved URL always contains `/v1` in that dialect) — and in
particular never returns the resolved URL unchanged. -/
theorem endpoint_resolution_not_idempotent (e : Str)
    (h1 : jsTrim e = e) (h2 : endsWithSlash e = false) :
    (getChatEndpoint (getChatEndpoint e) =
        getChatEndpoint e ++
          (if isOllamaEndpoint e then "/api/chat".data
           else "/chat/completions".data) ∧
      getChatEndpoint (getChatEndpoint e) ≠ getChatEndpoint e) ∧
    (getModelsEndpoint (getModelsEndpoint e) =
        getModelsEndpoint e ++
          (if isOllamaEndpoint e then "/api/tags".data
           else "/models".data) ∧
      getModelsEndpoint (getModelsEndpoint e) ≠ getModelsEndpoint e) := by
  have hchat : getChatEndpoint (getChatEndpoint e) =
      getChatEndpoint e ++
        (if isOllamaEndpoint e then "/api/chat".data
         else "/chat/completions".data) :=
    resolveWith_twice "/api/chat".data "/chat/completions".data
      "/v1/chat/completions".data e h1 h2 (by decide) (by decide) (by decide)
      (by decide)
  have hmod : getModelsEndpoint (getModelsEndpoint e) =
      getModelsEndpoint e ++
        (if isOllamaEndpoint e then "/api/tags".data
         else "/models".data) :=
    resolveWith_twice "/api/tags".data "/models".data "/v1/models".data e h1
      h2 (by decide) (by decide) (by decide) (by decide)
  refine ⟨⟨hchat, ?_⟩, ⟨hmod, ?_⟩⟩
  · rw [hchat]
    apply append_ne_self_of_ne_nil
    cases isOllamaEndpoint e <;> decide
  · rw [hmod]
    apply append_ne_self_of_ne_nil
    cases isOllamaEndpoint e <;> decide

/-- Witness for C8's amended statement: the local fixture URL, on which
the re-resolved chat endpoint demonstrably appends `/api/chat` again. -/
theorem endpoint_resolution_not_idempotent_witness :
    getChatEndpoint (getChatEndpoint "http://localhost:11434".data) =
      getChatEndpoint "http://localhost:11434".data ++ "/api/chat".data ∧
    getChatEndpoint (getChatEndpoint "http://localhost:11434".data) ≠
      getChatEndpoint "http://localhost:11434".data := by
  have h := (endpoint_resolution_not_idempotent "http://localhost:11434".data
    (by decide) (by decide)).1
  exact ⟨h.1.trans (by decide), h.2⟩
